import Mathlib

/-!
Shallow embedding of the WebSocket connection manager and broadcast relay
of the chat backend (src/main.py, lines 199-237).

Modelling choices:
* A WebSocket connection object is modelled by an opaque handle of type Nat.
* A JSON value (the message envelopes handled by json.loads / send_json)
  is modelled by the inductive type Json below.
* The Python dict `ConnectionManager.active_connections : dict[str, WebSocket]`
  is modelled by an insertion-ordered association list, Registry, together
  with the exact dict operations the source uses: key-preserving assignment
  (insert at the end on a fresh key, update in place on an existing key),
  `in` / `del`, `.get`, and `.values()` in insertion order, matching the
  semantics of Python 3.7+ dicts.
* `await connection.send_json(message)` can raise (for instance on a socket
  that is already closing).  Which handles fail is modelled by an
  environment `fails : Nat → Bool`; a send to a failing handle delivers
  nothing and raises.  The source's `broadcast` has no try/except, so the
  model propagates the first failure and stops, exactly as the `for` loop
  in lines 219-221 does.
-/

/-- A JSON value, as produced by json.loads and consumed by send_json. -/
inductive Json where
  | null : Json
  | bool (b : Bool) : Json
  | num (n : Int) : Json
  | str (s : String) : Json
  | arr (elems : List Json) : Json
  | obj (fields : List (String × Json)) : Json

/-- The state of ConnectionManager.active_connections: an insertion-ordered
mapping from user_id strings to connection handles (Python 3.7+ dict). -/
abbrev Registry := List (String × Nat)

/-- Python `d.get(k)`: the value stored at key k, or None.  Over the
association-list model this is first-match lookup (on a dict state the
keys are unique, so first match is the match). -/
def dictGet : Registry → String → Option Nat
  | [], _ => none
  | p :: rest, k => if p.1 = k then some p.2 else dictGet rest k

/-- Python `key in d` for the registry dict. -/
def dictMem (d : Registry) (k : String) : Bool :=
  (dictGet d k).isSome

/-- Python `d[k] = v`: updates the entry in place when the key is present
(keeping its position, as dicts do), otherwise appends a new entry. -/
def dictSet (d : Registry) (k : String) (v : Nat) : Registry :=
  if dictMem d k then d.map (fun p => if p.1 = k then (k, v) else p)
  else d ++ [(k, v)]

/-- Python `del d[k]` (on a dict with unique keys it removes the one entry). -/
def dictDel (d : Registry) (k : String) : Registry :=
  d.filter (fun p => ¬ p.1 = k)

/-- Python `d.values()` in insertion order. -/
def dictValues (d : Registry) : List Nat :=
  d.map Prod.snd

/-- ConnectionManager.connect (main.py:206-208): accept the socket, then
`self.active_connections[user_id] = websocket`. -/
def ConnectionManager.connect (d : Registry) (user_id : String) (websocket : Nat) :
    Registry :=
  dictSet d user_id websocket

/-- ConnectionManager.disconnect (main.py:210-212):
`if user_id in self.active_connections: del self.active_connections[user_id]`. -/
def ConnectionManager.disconnect (d : Registry) (user_id : String) : Registry :=
  if dictMem d user_id then dictDel d user_id else d

/-- ConnectionManager.send_personal_message (main.py:214-217):
`websocket = self.active_connections.get(user_id); if websocket: await
websocket.send_json(message)`.  Returns the (unchanged) registry together
with the list of performed sends, each a pair (handle, message). -/
def send_personal_message (d : Registry) (user_id : String) (message : Json) :
    Registry × List (Nat × Json) :=
  match dictGet d user_id with
  | some websocket => (d, [(websocket, message)])
  | none => (d, [])

/-- Outcome of a call to ConnectionManager.broadcast: the registry after the
call, the sends that were actually delivered (in order), and whether the
call returned normally (ok = true) or raised to its caller (ok = false). -/
structure BroadcastResult where
  registry : Registry
  sent : List (Nat × Json)
  ok : Bool

/-- The body of the `for` loop of broadcast (main.py:220-221): send to each
handle in turn; a raising send delivers nothing, aborts the loop and
propagates (there is no try/except in the source). -/
def broadcastLoop (message : Json) (fails : Nat → Bool) :
    List Nat → List (Nat × Json) × Bool
  | [] => ([], true)
  | c :: rest =>
    if fails c then ([], false)
    else
      let r := broadcastLoop message fails rest
      ((c, message) :: r.1, r.2)

/-- ConnectionManager.broadcast (main.py:219-221):
`for connection in self.active_connections.values(): await
connection.send_json(message)`.  The method never writes to
active_connections. -/
def ConnectionManager.broadcast (d : Registry) (message : Json)
    (fails : Nat → Bool) : BroadcastResult :=
  let r := broadcastLoop message fails (dictValues d)
  ⟨d, r.1, r.2⟩

/-- The synthetic presence envelope broadcast on connect (main.py:228). -/
def onlineMsg (user_id : String) : Json :=
  .obj [("event", .str "user_online"), ("user_id", .str user_id)]

/-- The synthetic presence envelope broadcast on disconnect (main.py:237). -/
def offlineMsg (user_id : String) : Json :=
  .obj [("event", .str "user_offline"), ("user_id", .str user_id)]

/-- One iteration's input to the receive loop of websocket_endpoint:
either `websocket.receive_text()` returns a text frame, whose
`json.loads` outcome is recorded (none when the text is not valid JSON,
in which case json.loads raises json.JSONDecodeError), or it raises
WebSocketDisconnect because the peer closed. -/
inductive InEvent where
  | text (parsed : Option Json) : InEvent
  | wsDisconnect : InEvent

/-- The observable outcome of running (a finite prefix of) the endpoint:
the registry when it stops, every send performed by any broadcast during
the run (in order), and whether an exception escaped the handler
(uncaught = true for json.JSONDecodeError or a send failure, which the
`except WebSocketDisconnect` clause at main.py:235 does not catch). -/
structure EndpointResult where
  registry : Registry
  sends : List (Nat × Json)
  uncaught : Bool

/-- The `try ... while True ... except WebSocketDisconnect` part of
websocket_endpoint (main.py:230-237), run on a finite list of receive
outcomes.  An exhausted list models a loop still blocked in
receive_text; events after a terminating one are unreachable and
ignored.  Cases:
* receive_text raises WebSocketDisconnect: caught; the handler runs
  `manager.disconnect(user_id)` then broadcasts the user_offline
  envelope (a failure inside the handler escapes, uncaught).
* json.loads fails: json.JSONDecodeError is not WebSocketDisconnect, so
  it escapes: no unregister, no user_offline broadcast.
* json.loads succeeds: `manager.broadcast(payload)`; a send failure
  escapes the handler the same way; otherwise loop. -/
def receiveLoop (user_id : String) (fails : Nat → Bool) :
    Registry → List InEvent → EndpointResult
  | d, [] => ⟨d, [], false⟩
  | d, .wsDisconnect :: _ =>
    let d2 := ConnectionManager.disconnect d user_id
    let r := ConnectionManager.broadcast d2 (offlineMsg user_id) fails
    ⟨r.registry, r.sent, !r.ok⟩
  | d, .text none :: _ => ⟨d, [], true⟩
  | d, .text (some payload) :: rest =>
    let r := ConnectionManager.broadcast d payload fails
    if r.ok then
      let res := receiveLoop user_id fails r.registry rest
      ⟨res.registry, r.sent ++ res.sends, res.uncaught⟩
    else ⟨r.registry, r.sent, true⟩

/-- websocket_endpoint (main.py:225-237): accept and register the
connection under user_id, broadcast the user_online envelope, then run
the receive loop.  A failure of the user_online broadcast happens before
the try block and escapes. -/
def websocket_endpoint (user_id : String) (websocket : Nat) (d : Registry)
    (fails : Nat → Bool) (events : List InEvent) : EndpointResult :=
  let d1 := ConnectionManager.connect d user_id websocket
  let r := ConnectionManager.broadcast d1 (onlineMsg user_id) fails
  if r.ok then
    let res := receiveLoop user_id fails r.registry events
    ⟨res.registry, r.sent ++ res.sends, res.uncaught⟩
  else ⟨d1, r.sent, true⟩

/-- One call on the registry, for reasoning about call sequences:
register is ConnectionManager.connect, unregister is
ConnectionManager.disconnect. -/
inductive RegOp where
  | register (id : String) (conn : Nat) : RegOp
  | unregister (id : String) : RegOp

/-- Runs a sequence of registry calls left to right. -/
def applyOps : List RegOp → Registry → Registry
  | [], d => d
  | .register i c :: rest, d => applyOps rest (ConnectionManager.connect d i c)
  | .unregister i :: rest, d => applyOps rest (ConnectionManager.disconnect d i)

/-- Modelled from the spec: the identifier-to-connection correspondence
the spec ascribes to a call sequence, read left to right with an
accumulator — a register of i sets i's connection, an unregister of i
clears it, calls on other identifiers leave it alone.  The accumulator
starts at none (empty registry), so the result is some c exactly when i
was registered with c and not subsequently unregistered, c being the
connection of i's most recent register call. -/
def specResolve (i : String) : List RegOp → Option Nat → Option Nat
  | [], acc => acc
  | .register j c :: rest, acc =>
    specResolve i rest (if j = i then some c else acc)
  | .unregister j :: rest, acc =>
    specResolve i rest (if j = i then none else acc)

/-- The keys of a registry, in order. -/
def keys (d : Registry) : List String :=
  d.map Prod.fst

/-! ### Lemmas about the dict operations -/

theorem dictGet_map_update (d : Registry) (k : String) (v : Nat) (i : String) :
    dictGet (d.map (fun p => if p.1 = k then (k, v) else p)) i
      = if k = i then (if dictMem d k then some v else none) else dictGet d i := by
  induction d with
  | nil => by_cases hki : k = i <;> simp [dictGet, dictMem, hki]
  | cons p rest ih =>
    by_cases hpk : p.1 = k
    · by_cases hki : k = i
      · subst hki
        simp [dictGet, dictMem, hpk]
      · have hpi : ¬ p.1 = i := by rw [hpk]; exact hki
        simp [dictGet, dictMem, hpk, hki, hpi] at ih ⊢
        exact ih
    · by_cases hki : k = i
      · subst hki
        simp [dictGet, dictMem, hpk] at ih ⊢
        exact ih
      · simp [dictGet, dictMem, hpk, hki] at ih ⊢
        by_cases hpi : p.1 = i <;> simp [hpi, ih]

theorem dictGet_append_single (d : Registry) (k : String) (v : Nat) (i : String) :
    dictGet (d ++ [(k, v)]) i
      = if (dictGet d i).isSome then dictGet d i
        else if k = i then some v else none := by
  induction d with
  | nil => simp [dictGet]
  | cons p rest ih =>
    by_cases hpi : p.1 = i <;> simp [dictGet, hpi, ih]

theorem dictGet_dictSet (d : Registry) (k : String) (v : Nat) (i : String) :
    dictGet (dictSet d k v) i = if k = i then some v else dictGet d i := by
  unfold dictSet
  by_cases hmem : dictMem d k
  · rw [if_pos hmem, dictGet_map_update, if_pos hmem]
  · rw [if_neg hmem, dictGet_append_single]
    by_cases hki : k = i
    · subst hki
      have hnone : dictGet d k = none := by
        cases hget : dictGet d k with
        | none => rfl
        | some c => exact absurd (by simp [dictMem, hget]) hmem
      simp [hnone]
    · cases hget : dictGet d i with
      | none => simp [hget, hki]
      | some c => simp [hget, hki]

theorem dictGet_dictDel (d : Registry) (k : String) (i : String) :
    dictGet (dictDel d k) i = if k = i then none else dictGet d i := by
  induction d with
  | nil => simp [dictDel, dictGet]
  | cons p rest ih =>
    by_cases hpk : p.1 = k
    · by_cases hki : k = i
      · subst hki
        simp [dictDel, List.filter_cons, dictGet, hpk] at ih ⊢
        exact ih
      · have hpi : ¬ p.1 = i := by rw [hpk]; exact hki
        simp [dictDel, List.filter_cons, dictGet, hpk, hki, hpi] at ih ⊢
        exact ih
    · by_cases hki : k = i
      · subst hki
        simp [dictDel, List.filter_cons, dictGet, hpk] at ih ⊢
        exact ih
      · simp [dictDel, List.filter_cons, dictGet, hpk, hki] at ih ⊢
        by_cases hpi : p.1 = i <;> simp [hpi, ih]

theorem dictGet_disconnect (d : Registry) (k : String) (i : String) :
    dictGet (ConnectionManager.disconnect d k) i
      = if k = i then none else dictGet d i := by
  unfold ConnectionManager.disconnect
  by_cases hmem : dictMem d k
  · rw [if_pos hmem, dictGet_dictDel]
  · rw [if_neg hmem]
    by_cases hki : k = i
    · subst hki
      cases hget : dictGet d k with
      | none => simp [hget]
      | some c => exact absurd (by simp [dictMem, hget]) hmem
    · simp [hki]

theorem dictGet_connect (d : Registry) (k : String) (v : Nat) (i : String) :
    dictGet (ConnectionManager.connect d k v) i
      = if k = i then some v else dictGet d i :=
  dictGet_dictSet d k v i

theorem dictMem_false_get_none (d : Registry) (k : String)
    (h : ¬ dictMem d k = true) : dictGet d k = none := by
  unfold dictMem at h
  cases hget : dictGet d k with
  | none => rfl
  | some c => rw [hget] at h; exact absurd rfl h

theorem dictGet_eq_none_iff (d : Registry) (k : String) :
    dictGet d k = none ↔ k ∉ keys d := by
  induction d with
  | nil => simp [dictGet, keys]
  | cons p rest ih =>
    by_cases hpk : p.1 = k
    · simp [dictGet, keys, hpk]
    · have hkp : ¬ k = p.1 := fun h => hpk h.symm
      simp [dictGet, keys, hpk, hkp, ih]

theorem keys_map_update (d : Registry) (k : String) (v : Nat) :
    keys (d.map (fun p => if p.1 = k then (k, v) else p)) = keys d := by
  unfold keys
  rw [List.map_map]
  have hfun : (Prod.fst ∘ fun p : String × Nat => if p.1 = k then (k, v) else p)
      = Prod.fst := by
    funext p
    by_cases hpk : p.1 = k <;> simp [hpk]
  rw [hfun]

theorem keysNodup_connect (d : Registry) (k : String) (v : Nat)
    (h : (keys d).Nodup) : (keys (ConnectionManager.connect d k v)).Nodup := by
  unfold ConnectionManager.connect dictSet
  by_cases hmem : dictMem d k
  · rw [if_pos hmem, keys_map_update]
    exact h
  · rw [if_neg hmem]
    have hk : k ∉ keys d :=
      (dictGet_eq_none_iff d k).mp (dictMem_false_get_none d k hmem)
    unfold keys
    rw [List.map_append]
    simp only [List.nodup_append, List.map_cons, List.map_nil,
      List.nodup_singleton, true_and, List.nodup_cons]
    refine ⟨h, ?_, ?_⟩
    · simp
    · intro a ha
      simp only [List.mem_singleton]
      intro haa
      exact hk (haa ▸ ha)

theorem keysNodup_disconnect (d : Registry) (k : String)
    (h : (keys d).Nodup) : (keys (ConnectionManager.disconnect d k)).Nodup := by
  unfold ConnectionManager.disconnect
  by_cases hmem : dictMem d k
  · rw [if_pos hmem]
    exact List.Nodup.sublist (List.Sublist.map Prod.fst (List.filter_sublist d)) h
  · rw [if_neg hmem]
    exact h

theorem keysNodup_applyOps (ops : List RegOp) (d : Registry)
    (h : (keys d).Nodup) : (keys (applyOps ops d)).Nodup := by
  induction ops generalizing d with
  | nil => exact h
  | cons op rest ih =>
    cases op with
    | register j c => exact ih _ (keysNodup_connect d j c h)
    | unregister j => exact ih _ (keysNodup_disconnect d j h)

theorem mem_iff_dictGet (d : Registry) (hnd : (keys d).Nodup) (i : String)
    (c : Nat) : (i, c) ∈ d ↔ dictGet d i = some c := by
  induction d with
  | nil => simp [dictGet]
  | cons p rest ih =>
    have hhead : p.1 ∉ keys rest := by
      simp only [keys, List.map_cons, List.nodup_cons] at hnd
      exact hnd.1
    have htail : (keys rest).Nodup := by
      simp only [keys, List.map_cons, List.nodup_cons] at hnd
      exact hnd.2
    by_cases hpi : p.1 = i
    · subst hpi
      have hget : dictGet (p :: rest) p.1 = some p.2 := by
        simp [dictGet]
      rw [hget]
      constructor
      · intro hm
        rcases List.mem_cons.mp hm with h | h
        · have hc : c = p.2 := congrArg Prod.snd h
          rw [hc]
        · exact absurd (List.mem_map_of_mem Prod.fst h) hhead
      · intro h
        have hc : p.2 = c := Option.some.inj h
        exact List.mem_cons.mpr (Or.inl (by rw [← hc]))
    · simp only [dictGet, if_neg hpi, List.mem_cons]
      rw [← ih htail]
      constructor
      · rintro (h | h)
        · exact absurd (congrArg Prod.fst h).symm hpi
        · exact h
      · exact fun h => Or.inr h

theorem dictGet_applyOps (ops : List RegOp) (d : Registry) (i : String) :
    dictGet (applyOps ops d) i = specResolve i ops (dictGet d i) := by
  induction ops generalizing d with
  | nil => rfl
  | cons op rest ih =>
    cases op with
    | register j c =>
      simp only [applyOps, specResolve]
      rw [ih, dictGet_connect]
    | unregister j =>
      simp only [applyOps, specResolve]
      rw [ih, dictGet_disconnect]

/-! ### Lemmas about broadcast and the receive loop -/

theorem broadcastLoop_eq (message : Json) (fails : Nat → Bool) (l : List Nat) :
    broadcastLoop message fails l
      = ((l.takeWhile (fun c => !fails c)).map (fun c => (c, message)),
         l.all (fun c => !fails c)) := by
  induction l with
  | nil => rfl
  | cons c rest ih =>
    by_cases hc : fails c <;>
      simp [broadcastLoop, List.takeWhile_cons, hc, ih]

theorem broadcast_noFail (d : Registry) (m : Json) (fails : Nat → Bool)
    (h : ∀ c ∈ dictValues d, fails c = false) :
    ConnectionManager.broadcast d m fails
      = ⟨d, (dictValues d).map (fun c => (c, m)), true⟩ := by
  unfold ConnectionManager.broadcast
  rw [broadcastLoop_eq]
  have htake : (dictValues d).takeWhile (fun c => !fails c) = dictValues d :=
    List.takeWhile_eq_self_iff.mpr (fun c hc => by simp [h c hc])
  have hall : (dictValues d).all (fun c => !fails c) = true :=
    List.all_eq_true.mpr (fun c hc => by simp [h c hc])
  rw [htake, hall]

theorem receiveLoop_run (u : String) (fails : Nat → Bool)
    (hfails : ∀ c, fails c = false) (d : Registry) (pre : List Json) :
    receiveLoop u fails d
        (pre.map (fun j => InEvent.text (some j)) ++ [InEvent.wsDisconnect])
      = ⟨ConnectionManager.disconnect d u,
         (pre.map (fun j => (dictValues d).map (fun c => (c, j)))).flatten
           ++ (dictValues (ConnectionManager.disconnect d u)).map
                (fun c => (c, offlineMsg u)),
         false⟩ := by
  induction pre with
  | nil =>
    simp only [List.map_nil, List.nil_append, receiveLoop]
    rw [broadcast_noFail _ _ _ (fun c _ => hfails c)]
    simp
  | cons j rest ih =>
    simp only [List.map_cons, List.cons_append, receiveLoop]
    rw [broadcast_noFail _ _ _ (fun c _ => hfails c)]
    simp [ih, List.append_assoc]

theorem dictGet_eq_some_mem (d : Registry) (i : String) (c : Nat)
    (h : dictGet d i = some c) : (i, c) ∈ d := by
  induction d with
  | nil => simp [dictGet] at h
  | cons p rest ih =>
    by_cases hpi : p.1 = i
    · simp only [dictGet, if_pos hpi] at h
      have hc : p.2 = c := Option.some.inj h
      exact List.mem_cons.mpr (Or.inl (by rw [← hpi, ← hc]))
    · simp only [dictGet, if_neg hpi] at h
      exact List.mem_cons.mpr (Or.inr (ih h))

theorem dictGet_mem_values (d : Registry) (i : String) (c : Nat)
    (h : dictGet d i = some c) : c ∈ dictValues d :=
  List.mem_map_of_mem Prod.snd (dictGet_eq_some_mem d i c h)

theorem onlineMsg_ne_offlineMsg (u : String) : onlineMsg u ≠ offlineMsg u := by
  unfold onlineMsg offlineMsg
  intro h
  have hfields := Json.obj.inj h
  have hhead := (List.cons.inj hfields).1
  have hev := (Prod.mk.injEq _ _ _ _ ▸ hhead).2
  have hstr : "user_online" = "user_offline" := Json.str.inj hev
  exact absurd hstr (by decide)

/-! ### The claims -/

/-- C1 (claim as stated, refuted): with two registered connections and the
first send failing, the second, reachable connection does not receive the
envelope and the failure is raised to the caller of broadcast, so a
delivery failure to one connection does abort delivery to the rest. -/
theorem C1_counterexample :
    ¬ ((1, Json.str "hi") ∈ (ConnectionManager.broadcast
          [("a", 0), ("b", 1)] (Json.str "hi") (fun c => c == 0)).sent
       ∧ (ConnectionManager.broadcast [("a", 0), ("b", 1)] (Json.str "hi")
            (fun c => c == 0)).ok = true) := by
  intro h
  have hsent : (ConnectionManager.broadcast [("a", 0), ("b", 1)]
      (Json.str "hi") (fun c => c == 0)).sent = [] := rfl
  rw [hsent] at h
  exact List.not_mem_nil _ h.1

/-- C1 (amended): broadcast attempts the sends in registry iteration
order; exactly the connections strictly before the first failing one
receive the envelope, and broadcast returns normally if and only if no
registered connection's send fails — otherwise the failure is raised to
the caller and delivery to every later connection is aborted. -/
theorem C1_amended_broadcast_stops_at_first_failure (d : Registry)
    (m : Json) (fails : Nat → Bool) :
    (ConnectionManager.broadcast d m fails).sent
      = ((dictValues d).takeWhile (fun c => !fails c)).map (fun c => (c, m))
    ∧ ((ConnectionManager.broadcast d m fails).ok = true
        ↔ ∀ c ∈ dictValues d, fails c = false) := by
  unfold ConnectionManager.broadcast
  rw [broadcastLoop_eq]
  refine ⟨rfl, ?_⟩
  simp [List.all_eq_true]

/-- C2 (claim as stated, refuted): after the connection registered as
alice sends a non-JSON text frame, alice is still registered, the
remaining connection does not receive a user_offline envelope, and the
parse error escapes the handler — not at all what happens on a
disconnect. -/
theorem C2_counterexample :
    dictGet (websocket_endpoint "alice" 7 [("bob", 5)] (fun _ => false)
        [InEvent.text none]).registry "alice" = some 7
    ∧ (websocket_endpoint "alice" 7 [("bob", 5)] (fun _ => false)
        [InEvent.text none]).uncaught = true
    ∧ (5, offlineMsg "alice") ∉ (websocket_endpoint "alice" 7 [("bob", 5)]
        (fun _ => false) [InEvent.text none]).sends := by
  refine ⟨rfl, rfl, ?_⟩
  intro hmem
  have hsends : (websocket_endpoint "alice" 7 [("bob", 5)] (fun _ => false)
      [InEvent.text none]).sends
      = [(5, onlineMsg "alice"), (7, onlineMsg "alice")] := rfl
  rw [hsends] at hmem
  rcases List.mem_cons.mp hmem with h | h
  · exact onlineMsg_ne_offlineMsg "alice" ((Prod.mk.injEq _ _ _ _ ▸ h).2).symm
  · rcases List.mem_cons.mp h with h2 | h2
    · exact absurd ((Prod.mk.injEq _ _ _ _ ▸ h2).1) (by decide)
    · exact List.not_mem_nil _ h2

/-- C2 (amended): a text frame that is not valid JSON terminates that
connection's receive loop with no frame sent back to the offending
client, but unlike a disconnect the identifier remains registered and no
user_offline envelope is broadcast: json.JSONDecodeError is not
WebSocketDisconnect, so it escapes the handler and the cleanup at
main.py:236-237 never runs. -/
theorem C2_amended_malformed_json_skips_cleanup (d : Registry) (u : String)
    (ws : Nat) (fails : Nat → Bool) (h : ∀ c, fails c = false) :
    (websocket_endpoint u ws d fails [InEvent.text none]).registry
      = ConnectionManager.connect d u ws
    ∧ dictGet (websocket_endpoint u ws d fails [InEvent.text none]).registry u
      = some ws
    ∧ (websocket_endpoint u ws d fails [InEvent.text none]).uncaught = true
    ∧ (websocket_endpoint u ws d fails [InEvent.text none]).sends
      = (dictValues (ConnectionManager.connect d u ws)).map
          (fun c => (c, onlineMsg u))
    ∧ ∀ p ∈ (websocket_endpoint u ws d fails [InEvent.text none]).sends,
        p.2 ≠ offlineMsg u := by
  have hrun : websocket_endpoint u ws d fails [InEvent.text none]
      = ⟨ConnectionManager.connect d u ws,
         (dictValues (ConnectionManager.connect d u ws)).map
           (fun c => (c, onlineMsg u)),
         true⟩ := by
    unfold websocket_endpoint
    dsimp only
    rw [broadcast_noFail _ _ _ (fun c _ => h c)]
    simp [receiveLoop]
  rw [hrun]
  refine ⟨rfl, ?_, rfl, rfl, ?_⟩
  · rw [dictGet_connect]
    simp
  · intro p hp
    rcases List.mem_map.mp hp with ⟨c, _, hc⟩
    rw [← hc]
    exact onlineMsg_ne_offlineMsg u

/-- C2 amended, instantiated at a concrete input. -/
theorem C2_amended_witness :
    (websocket_endpoint "alice" 7 [("bob", 5)] (fun _ => false)
        [InEvent.text none]).registry
      = ConnectionManager.connect [("bob", 5)] "alice" 7
    ∧ dictGet (websocket_endpoint "alice" 7 [("bob", 5)] (fun _ => false)
        [InEvent.text none]).registry "alice" = some 7
    ∧ (websocket_endpoint "alice" 7 [("bob", 5)] (fun _ => false)
        [InEvent.text none]).uncaught = true :=
  ⟨(C2_amended_malformed_json_skips_cleanup [("bob", 5)] "alice" 7
      (fun _ => false) (fun _ => rfl)).1,
   (C2_amended_malformed_json_skips_cleanup [("bob", 5)] "alice" 7
      (fun _ => false) (fun _ => rfl)).2.1,
   (C2_amended_malformed_json_skips_cleanup [("bob", 5)] "alice" 7
      (fun _ => false) (fun _ => rfl)).2.2.1⟩

/-- C3: after any finite sequence of register/unregister calls starting
from the empty registry, lookup of any identifier yields exactly what the
sequence dictates (the connection of its most recent register call, if
not unregistered since), the keys are pairwise distinct (so registering
twice under one identifier leaves exactly one entry, for the second
connection), and an entry (i, c) is present exactly when the sequence
resolves i to c. -/
theorem C3_registry_last_writer_wins (ops : List RegOp) (i : String) :
    dictGet (applyOps ops []) i = specResolve i ops none
    ∧ (keys (applyOps ops [])).Nodup
    ∧ ∀ c : Nat, ((i, c) ∈ applyOps ops [] ↔ specResolve i ops none = some c) := by
  have hnd : (keys (applyOps ops [])).Nodup :=
    keysNodup_applyOps ops [] (by simp [keys])
  have hget : dictGet (applyOps ops []) i = specResolve i ops none :=
    dictGet_applyOps ops [] i
  refine ⟨hget, hnd, fun c => ?_⟩
  rw [mem_iff_dictGet _ hnd, hget]

/-- C4: when every registered connection's send succeeds, broadcasting a
parsed payload sends exactly that payload, unmodified, to each currently
registered connection in registry order — in particular to the
connection registered for any identifier, the sender's own included. -/
theorem C4_broadcast_verbatim_selfinclusive (d : Registry) (payload : Json)
    (fails : Nat → Bool) (h : ∀ c ∈ dictValues d, fails c = false) :
    (ConnectionManager.broadcast d payload fails).sent
      = (dictValues d).map (fun c => (c, payload))
    ∧ ∀ i ws, dictGet d i = some ws
        → (ws, payload) ∈ (ConnectionManager.broadcast d payload fails).sent := by
  rw [broadcast_noFail d payload fails h]
  refine ⟨rfl, fun i ws hget => ?_⟩
  exact List.mem_map_of_mem _ (dictGet_mem_values d i ws hget)

/-- C4, instantiated: a registry holding u1 at handle 3; broadcasting a
payload delivers it verbatim, to u1's own connection included. -/
theorem C4_witness :
    (ConnectionManager.broadcast [("u1", 3)] (Json.str "hi")
        (fun _ => false)).sent = [(3, Json.str "hi")]
    ∧ (3, Json.str "hi") ∈ (ConnectionManager.broadcast [("u1", 3)]
        (Json.str "hi") (fun _ => false)).sent :=
  ⟨(C4_broadcast_verbatim_selfinclusive [("u1", 3)] (Json.str "hi")
      (fun _ => false) (fun _ _ => rfl)).1,
   (C4_broadcast_verbatim_selfinclusive [("u1", 3)] (Json.str "hi")
      (fun _ => false) (fun _ _ => rfl)).2 "u1" 3 rfl⟩

/-- C5: websocket_endpoint registers the new connection under its
identifier before broadcasting the user_online envelope, so every
connection registered at that moment — the newly registered one
included — receives that envelope. -/
theorem C5_online_broadcast_selfinclusive (d : Registry) (u : String)
    (ws : Nat) (fails : Nat → Bool) (events : List InEvent)
    (h : ∀ c, fails c = false) :
    (∀ p ∈ ConnectionManager.connect d u ws,
        (p.2, onlineMsg u) ∈ (websocket_endpoint u ws d fails events).sends)
    ∧ (ws, onlineMsg u) ∈ (websocket_endpoint u ws d fails events).sends := by
  have hA : ∀ p ∈ ConnectionManager.connect d u ws,
      (p.2, onlineMsg u) ∈ (websocket_endpoint u ws d fails events).sends := by
    intro p hp
    unfold websocket_endpoint
    dsimp only
    rw [broadcast_noFail _ _ _ (fun c _ => h c)]
    simp only [if_true]
    apply List.mem_append_left
    exact List.mem_map_of_mem _ (List.mem_map_of_mem Prod.snd hp)
  refine ⟨hA, ?_⟩
  apply hA (u, ws)
  apply dictGet_eq_some_mem
  rw [dictGet_connect]
  simp

/-- C5, instantiated: bob is connected; alice connects; both bob's and
alice's own connections receive the user_online envelope for alice. -/
theorem C5_witness :
    (7, onlineMsg "alice") ∈ (websocket_endpoint "alice" 7 [("bob", 5)]
        (fun _ => false) []).sends
    ∧ (5, onlineMsg "alice") ∈ (websocket_endpoint "alice" 7 [("bob", 5)]
        (fun _ => false) []).sends :=
  ⟨(C5_online_broadcast_selfinclusive [("bob", 5)] "alice" 7
      (fun _ => false) [] (fun _ => rfl)).2,
   (C5_online_broadcast_selfinclusive [("bob", 5)] "alice" 7
      (fun _ => false) [] (fun _ => rfl)).1 ("bob", 5) (by decide)⟩

/-- C6: when the peer disconnects (after any number of well-formed
frames), the endpoint first unregisters the identifier and then
broadcasts the user_offline envelope, whose recipients are exactly the
connections of the registry with the identifier removed — the departing
entry gets nothing.  The sends of the whole run decompose as the online
broadcast, the relayed payloads, then the offline broadcast over the
shrunken registry. -/
theorem C6_offline_broadcast_to_remaining (d : Registry) (u : String)
    (ws : Nat) (fails : Nat → Bool) (pre : List Json)
    (h : ∀ c, fails c = false) :
    (websocket_endpoint u ws d fails
        (pre.map (fun j => InEvent.text (some j)) ++ [InEvent.wsDisconnect])).registry
      = ConnectionManager.disconnect (ConnectionManager.connect d u ws) u
    ∧ dictGet (websocket_endpoint u ws d fails
        (pre.map (fun j => InEvent.text (some j)) ++ [InEvent.wsDisconnect])).registry u
      = none
    ∧ (websocket_endpoint u ws d fails
        (pre.map (fun j => InEvent.text (some j)) ++ [InEvent.wsDisconnect])).sends
      = (dictValues (ConnectionManager.connect d u ws)).map
          (fun c => (c, onlineMsg u))
        ++ (pre.map (fun j => (dictValues (ConnectionManager.connect d u ws)).map
              (fun c => (c, j)))).flatten
        ++ (dictValues (ConnectionManager.disconnect
              (ConnectionManager.connect d u ws) u)).map
            (fun c => (c, offlineMsg u))
    ∧ (websocket_endpoint u ws d fails
        (pre.map (fun j => InEvent.text (some j)) ++ [InEvent.wsDisconnect])).uncaught
      = false := by
  have hrun : websocket_endpoint u ws d fails
      (pre.map (fun j => InEvent.text (some j)) ++ [InEvent.wsDisconnect])
      = ⟨ConnectionManager.disconnect (ConnectionManager.connect d u ws) u,
         (dictValues (ConnectionManager.connect d u ws)).map
             (fun c => (c, onlineMsg u))
           ++ ((pre.map (fun j => (dictValues (ConnectionManager.connect d u ws)).map
                 (fun c => (c, j)))).flatten
             ++ (dictValues (ConnectionManager.disconnect
                   (ConnectionManager.connect d u ws) u)).map
                 (fun c => (c, offlineMsg u))),
         false⟩ := by
    unfold websocket_endpoint
    dsimp only
    rw [broadcast_noFail _ _ _ (fun c _ => h c), receiveLoop_run u fails h]
    simp
  rw [hrun]
  refine ⟨rfl, ?_, by simp [List.append_assoc], rfl⟩
  rw [dictGet_disconnect]
  simp

/-- C6, instantiated: bob is connected, alice connects then disconnects;
the final registry is bob's alone, alice is gone from it, the offline
envelope went to bob only, and nothing escaped the handler. -/
theorem C6_witness :
    (websocket_endpoint "alice" 7 [("bob", 5)] (fun _ => false)
        [InEvent.wsDisconnect]).registry = [("bob", 5)]
    ∧ dictGet (websocket_endpoint "alice" 7 [("bob", 5)] (fun _ => false)
        [InEvent.wsDisconnect]).registry "alice" = none
    ∧ (websocket_endpoint "alice" 7 [("bob", 5)] (fun _ => false)
        [InEvent.wsDisconnect]).sends
      = [(5, onlineMsg "alice"), (7, onlineMsg "alice"), (5, offlineMsg "alice")]
    ∧ (websocket_endpoint "alice" 7 [("bob", 5)] (fun _ => false)
        [InEvent.wsDisconnect]).uncaught = false :=
  ⟨(C6_offline_broadcast_to_remaining [("bob", 5)] "alice" 7
      (fun _ => false) [] (fun _ => rfl)).1,
   (C6_offline_broadcast_to_remaining [("bob", 5)] "alice" 7
      (fun _ => false) [] (fun _ => rfl)).2.1,
   (C6_offline_broadcast_to_remaining [("bob", 5)] "alice" 7
      (fun _ => false) [] (fun _ => rfl)).2.2.1,
   (C6_offline_broadcast_to_remaining [("bob", 5)] "alice" 7
      (fun _ => false) [] (fun _ => rfl)).2.2.2⟩

/-- C7: the registry operations are total functions in the model; in
particular, unregistering an identifier that is absent (lookup yields
the explicit absent result none) leaves the registry unchanged, raising
nothing. -/
theorem C7_unregister_absent_noop (d : Registry) (i : String)
    (h : dictGet d i = none) :
    ConnectionManager.disconnect d i = d := by
  unfold ConnectionManager.disconnect
  rw [if_neg]
  simp [dictMem, h]

/-- C7, instantiated: removing the never-registered alice from bob's
registry changes nothing. -/
theorem C7_witness :
    ConnectionManager.disconnect [("bob", 5)] "alice" = [("bob", 5)] :=
  C7_unregister_absent_noop [("bob", 5)] "alice" rfl

/-- C9: send_personal_message with an identifier that is not registered
(lookup yields none) is a silent no-op: the registry is unchanged and no
send is performed. -/
theorem C9_send_personal_absent_noop (d : Registry) (i : String) (m : Json)
    (h : dictGet d i = none) :
    send_personal_message d i m = (d, []) := by
  unfold send_personal_message
  rw [h]

/-- C9, instantiated: messaging the absent alice sends nothing and leaves
bob's registry as it was. -/
theorem C9_witness :
    send_personal_message [("bob", 5)] "alice" (Json.str "hi")
      = ([("bob", 5)], []) :=
  C9_send_personal_absent_noop [("bob", 5)] "alice" (Json.str "hi") rfl

/-- C10: broadcast only reads the registry; whatever the envelope and
whichever sends fail, the registry after the call is the one before it. -/
theorem C10_broadcast_preserves_registry (d : Registry) (m : Json)
    (fails : Nat → Bool) :
    (ConnectionManager.broadcast d m fails).registry = d := rfl
